import Mathlib

/-!
Verification development for the `erc20-storage-proof` repository
(`token/mapbased/mapbased.go` and `cmd/ethproof/ethproof.go`).

The two Go source files are shallowly embedded below.  External
collaborators (the chain RPC client, the value decoders in the `helpers`
package, the minime verifier, the EIP-1186 verifier) are represented as
oracle fields of a port structure, so theorems quantify over every
behaviour of those collaborators.  Balances (`*big.Float` in Go) are
modelled as exact rationals; `big.Float.Uint64` truncation is modelled by
`uint64Trunc` (truncation toward zero, clamping negatives to `0` and
values above `2^64 - 1` to `2^64 - 1`, matching `math/big`'s documented
saturation).
-/

/-- Truncation of a (scaled, possibly fractional) balance to a 64-bit
unsigned integer, as performed by `(*big.Float).Uint64`: truncate toward
zero; negative values give `0`; values above `2^64 - 1` saturate. -/
def uint64Trunc (q : ℚ) : ℕ :=
  if q < 0 then 0 else min (q.num.toNat / q.den) (2 ^ 64 - 1)

/-- Modelled from the spec: the `helpers.ValueToBalance` decode contract
(`Decode(rawHexValue, decimals) -> (scaledBalance, error)`): on success it
converts a raw storage word into the human-scaled balance
`raw / 10^decimals`.  The raw 32-byte word is modelled by the natural
number it encodes.  Written with `mkRat` so that it evaluates by kernel
reduction; `specDecode_eq_div` states the spec's formula. -/
def specDecode (v dec : ℕ) : ℚ := mkRat v (10 ^ dec)

theorem specDecode_eq_div (v dec : ℕ) :
    specDecode v dec = (v : ℚ) / (10 : ℚ) ^ dec := by
  unfold specDecode
  rw [Rat.mkRat_eq_div]
  push_cast
  ring

/-- Modelled from the spec: the unscaled magnitude of a scaled balance,
i.e. the balance multiplied back by `10^decimals`.  Used only to state the
spec's "unscaled magnitude" comparison for claim C2.  Written with `mkRat`
so that it evaluates by kernel reduction; `unscaledMagnitude_eq_mul`
states the defining formula. -/
def unscaledMagnitude (q : ℚ) (dec : ℕ) : ℚ := mkRat (q.num * 10 ^ dec) q.den

theorem unscaledMagnitude_eq_mul (q : ℚ) (dec : ℕ) :
    unscaledMagnitude q dec = q * (10 : ℚ) ^ dec := by
  unfold unscaledMagnitude
  rw [Rat.mkRat_eq_div, Int.cast_mul, mul_div_right_comm, Rat.num_div_den]
  norm_cast

/-- `DiscoveryIterations` constant from `mapbased.go` (`ITER_MAX`). -/
def DiscoveryIterations : ℕ := 30

/-- Decidable equality for `Except`, used to evaluate the embedded
functions on concrete ports. -/
instance exceptDecEq {ε α : Type} [DecidableEq ε] [DecidableEq α] :
    DecidableEq (Except ε α) := fun x y =>
  match x, y with
  | .ok a, .ok b =>
    if h : a = b then isTrue (by rw [h])
    else isFalse (fun hc => h (Except.ok.inj hc))
  | .ok _, .error _ => isFalse (fun hc => Except.noConfusion hc)
  | .error _, .ok _ => isFalse (fun hc => Except.noConfusion hc)
  | .error a, .error b =>
    if h : a = b then isTrue (by rw [h])
    else isFalse (fun hc => h (Except.error.inj hc))

/-- Errors a discovery run can surface, mirroring the error wrapping in
`Mapbased.DiscoverSlot`: `fmt.Errorf("GetTokenData: %w", err)`,
`fmt.Errorf("Balance: %w", err)`, `fmt.Errorf("GetSlot: %w", err)`, the
storage-read error returned unwrapped, and the `ErrSlotNotFound`
sentinel. -/
inductive DiscErr where
  | getTokenData (e : String)
  | balanceErr (e : String)
  | getSlot (e : String)
  | storage (e : String)
  | slotNotFound
deriving DecidableEq

/-- The triple returned by `Mapbased.DiscoverSlot`:
`(int, *big.Float, error)`.  A `nil` pointer is `none`. -/
structure DiscoverResult where
  index : ℤ
  amount : Option ℚ
  err : Option DiscErr
deriving DecidableEq

/-- The external collaborators used by `Mapbased.DiscoverSlot`, one oracle
per call site: `m.erc20.GetTokenData()` (only its `Decimals` field is
used), `m.erc20.Balance(holder)` (a scaled `*big.Float` balance),
`helpers.GetMapSlot(holder.Hex(), i)` (the derived 32-byte storage key,
modelled abstractly as a natural number), `m.erc20.Ethcli.StorageAt`
(raw 32-byte word at a storage key), and `helpers.ValueToBalance`
(decode a raw word with the token's decimals).  The holder address and
token address are fixed for one run, so they are folded into the
oracles. -/
structure ChainPort where
  getTokenData : Except String ℕ
  balance : Except String ℚ
  getMapSlot : ℕ → Except String ℕ
  storageAt : ℕ → Except String ℕ
  valueToBalance : ℕ → ℕ → Except String ℚ

/-- The discovery loop of `Mapbased.DiscoverSlot` (`for i := 0; i <
DiscoveryIterations; i++`), with `fuel` the remaining iterations.  The
second component records the position of every storage read issued
(`StorageAt` call), in order; the Go function returns only the triple.
On a match the returned amount is `some 0`: the Go code declares
`amount := big.NewFloat(0)` before the loop, the `:=` at the
`ValueToBalance` call creates a new loop-local `amount`, and the function
returns the never-updated outer one. -/
def discoverLoop (p : ChainPort) (dec ubal : ℕ) : ℕ → ℕ → DiscoverResult × List ℕ
  | _, 0 => (⟨-1, none, some .slotNotFound⟩, [])
  | i, fuel + 1 =>
    match p.getMapSlot i with
    | .error e => (⟨-1, none, some (.getSlot e)⟩, [])
    | .ok slot =>
      match p.storageAt slot with
      | .error e => (⟨-1, none, some (.storage e)⟩, [i])
      | .ok value =>
        match p.valueToBalance value dec with
        | .error _ =>
          let r := discoverLoop p dec ubal (i + 1) fuel
          (r.1, i :: r.2)
        | .ok amount =>
          if uint64Trunc amount = ubal then (⟨(i : ℤ), some 0, none⟩, [i])
          else
            let r := discoverLoop p dec ubal (i + 1) fuel
            (r.1, i :: r.2)

/-- `Mapbased.DiscoverSlot`: fetch token data and the holder's balance,
truncate the balance to `uint64` (`ubalance, _ := balance.Uint64()`), then
run the discovery loop.  The second component is the recorded list of
storage-read positions. -/
def DiscoverSlot (p : ChainPort) : DiscoverResult × List ℕ :=
  match p.getTokenData with
  | .error e => (⟨-1, none, some (.getTokenData e)⟩, [])
  | .ok decimals =>
    match p.balance with
    | .error e => (⟨-1, none, some (.balanceErr e)⟩, [])
    | .ok b => discoverLoop p decimals (uint64Trunc b) 0 DiscoveryIterations

/-- Position `j` reads successfully but does not match: slot derivation
and the storage read succeed, and decoding either fails (skipped) or
yields a balance whose truncation differs from the truncated ground
truth. -/
def succNonMatch (p : ChainPort) (dec ubal j : ℕ) : Bool :=
  match p.getMapSlot j with
  | .error _ => false
  | .ok slot =>
    match p.storageAt slot with
    | .error _ => false
    | .ok value =>
      match p.valueToBalance value dec with
      | .error _ => true
      | .ok amount => uint64Trunc amount != ubal

/-- Position `j` reads, decodes and matches: slot derivation, storage read
and decoding succeed and the truncated decoded balance equals the
truncated ground truth. -/
def matchAt (p : ChainPort) (dec ubal j : ℕ) : Bool :=
  match p.getMapSlot j with
  | .error _ => false
  | .ok slot =>
    match p.storageAt slot with
    | .error _ => false
    | .ok value =>
      match p.valueToBalance value dec with
      | .error _ => false
      | .ok amount => uint64Trunc amount == ubal

theorem discoverLoop_shape (p : ChainPort) (dec ubal : ℕ) (fuel : ℕ) :
    ∀ i : ℕ,
      (∃ j : ℕ, i ≤ j ∧ (discoverLoop p dec ubal i fuel).1 = ⟨(j : ℤ), some 0, none⟩) ∨
      (∃ e, (discoverLoop p dec ubal i fuel).1 = ⟨-1, none, some e⟩) := by
  induction fuel with
  | zero => intro i; exact Or.inr ⟨.slotNotFound, rfl⟩
  | succ fuel ih =>
    intro i
    cases hm : p.getMapSlot i with
    | error e => exact Or.inr ⟨.getSlot e, by simp [discoverLoop, hm]⟩
    | ok slot =>
      cases hv : p.storageAt slot with
      | error e => exact Or.inr ⟨.storage e, by simp [discoverLoop, hm, hv]⟩
      | ok value =>
        cases hd : p.valueToBalance value dec with
        | error e =>
          rcases ih (i + 1) with ⟨j, hj, hr⟩ | ⟨e2, hr⟩
          · exact Or.inl ⟨j, by omega, by simp [discoverLoop, hm, hv, hd, hr]⟩
          · exact Or.inr ⟨e2, by simp [discoverLoop, hm, hv, hd, hr]⟩
        | ok amount =>
          by_cases hq : uint64Trunc amount = ubal
          · exact Or.inl ⟨i, le_refl i, by simp [discoverLoop, hm, hv, hd, hq]⟩
          · rcases ih (i + 1) with ⟨j, hj, hr⟩ | ⟨e2, hr⟩
            · exact Or.inl ⟨j, by omega, by simp [discoverLoop, hm, hv, hd, hq, hr]⟩
            · exact Or.inr ⟨e2, by simp [discoverLoop, hm, hv, hd, hq, hr]⟩

theorem discoverLoop_exhaust (p : ChainPort) (dec ubal : ℕ) (fuel : ℕ) :
    ∀ i : ℕ, (∀ j, i ≤ j → j < i + fuel → succNonMatch p dec ubal j = true) →
      discoverLoop p dec ubal i fuel =
        (⟨-1, none, some .slotNotFound⟩, List.range' i fuel) := by
  induction fuel with
  | zero => intro i _; rfl
  | succ fuel ih =>
    intro i h
    have hi := h i (le_refl i) (by omega)
    cases hm : p.getMapSlot i with
    | error e => simp [succNonMatch, hm] at hi
    | ok slot =>
      cases hv : p.storageAt slot with
      | error e => simp [succNonMatch, hm, hv] at hi
      | ok value =>
        cases hd : p.valueToBalance value dec with
        | error e =>
          have hrec := ih (i + 1) (fun j h1 h2 => h j (by omega) (by omega))
          simp [discoverLoop, hm, hv, hd, hrec, List.range'_succ]
        | ok amount =>
          have hq : uint64Trunc amount ≠ ubal := by
            simpa [succNonMatch, hm, hv, hd] using hi
          have hrec := ih (i + 1) (fun j h1 h2 => h j (by omega) (by omega))
          simp [discoverLoop, hm, hv, hd, hq, hrec, List.range'_succ]

theorem discoverLoop_first_match (p : ChainPort) (dec ubal : ℕ) :
    ∀ (m i fuel : ℕ), m < fuel →
      (∀ j, i ≤ j → j < i + m → succNonMatch p dec ubal j = true) →
      matchAt p dec ubal (i + m) = true →
      discoverLoop p dec ubal i fuel =
        (⟨((i + m : ℕ) : ℤ), some 0, none⟩, List.range' i (m + 1)) := by
  intro m
  induction m with
  | zero =>
    intro i fuel hf _ hm
    cases fuel with
    | zero => omega
    | succ fuel =>
      simp only [Nat.add_zero] at hm ⊢
      cases hms : p.getMapSlot i with
      | error e => simp [matchAt, hms] at hm
      | ok slot =>
        cases hv : p.storageAt slot with
        | error e => simp [matchAt, hms, hv] at hm
        | ok value =>
          cases hd : p.valueToBalance value dec with
          | error e => simp [matchAt, hms, hv, hd] at hm
          | ok amount =>
            have hq : uint64Trunc amount = ubal := by
              simpa [matchAt, hms, hv, hd] using hm
            simp [discoverLoop, hms, hv, hd, hq, List.range'_succ]
  | succ m ihm =>
    intro i fuel hf hpre hm
    cases fuel with
    | zero => omega
    | succ fuel =>
      have hi := hpre i (le_refl i) (by omega)
      have hm2 : matchAt p dec ubal (i + 1 + m) = true := by
        have h12 : i + 1 + m = i + (m + 1) := by omega
        rw [h12]; exact hm
      have hrec := ihm (i + 1) fuel (by omega)
        (fun j h1 h2 => hpre j (by omega) (by omega)) hm2
      have hidx : i + 1 + m = i + (m + 1) := by omega
      cases hms : p.getMapSlot i with
      | error e => simp [succNonMatch, hms] at hi
      | ok slot =>
        cases hv : p.storageAt slot with
        | error e => simp [succNonMatch, hms, hv] at hi
        | ok value =>
          cases hd : p.valueToBalance value dec with
          | error e =>
            simp [discoverLoop, hms, hv, hd, hrec, hidx, List.range'_succ]
          | ok amount =>
            have hq : uint64Trunc amount ≠ ubal := by
              simpa [succNonMatch, hms, hv, hd] using hi
            simp [discoverLoop, hms, hv, hd, hq, hrec, hidx, List.range'_succ]

/-- Concrete port: decimals 1, scaled ground-truth balance 5, storage word
50 at the slot derived for position 0 (which decodes to the scaled
balance 5), 0 elsewhere. -/
def P1 : ChainPort :=
  { getTokenData := .ok 1
    balance := .ok 5
    getMapSlot := fun i => .ok i
    storageAt := fun s => if s = 0 then .ok 50 else .ok 0
    valueToBalance := fun v dec => .ok (specDecode v dec) }

/-- Concrete port: decimals 2, scaled ground-truth balance 1.99 (raw 199),
every slot holds the raw word 150 (scaled balance 1.50). -/
def P2 : ChainPort :=
  { getTokenData := .ok 2
    balance := .ok (mkRat 199 100)
    getMapSlot := fun i => .ok i
    storageAt := fun _ => .ok 150
    valueToBalance := fun v dec => .ok (specDecode v dec) }

/-- Concrete port: decimals 2, balance 7, every slot holds 0, so no
position ever matches. -/
def P4 : ChainPort :=
  { getTokenData := .ok 2
    balance := .ok 7
    getMapSlot := fun i => .ok i
    storageAt := fun _ => .ok 0
    valueToBalance := fun v dec => .ok (specDecode v dec) }

/-- Concrete port whose storage read at the slot for position 0 fails. -/
def P5 : ChainPort :=
  { getTokenData := .ok 2
    balance := .ok 7
    getMapSlot := fun i => .ok i
    storageAt := fun s => if s = 0 then .error "timeout" else .ok 3
    valueToBalance := fun v dec => .ok (specDecode v dec) }

/-- Concrete port whose decoder always fails. -/
def P5b : ChainPort :=
  { getTokenData := .ok 2
    balance := .ok 7
    getMapSlot := fun i => .ok i
    storageAt := fun _ => .ok 5
    valueToBalance := fun _ _ => .error "bad" }

/-- Concrete port for the spec's end-to-end scenario: decimals 2, scaled
balance 5.00 (raw 500), positions 0,1,2 decode to 0, 12.00, 999.00 and
position 3 holds raw 500 (scaled 5.00). -/
def P6 : ChainPort :=
  { getTokenData := .ok 2
    balance := .ok 5
    getMapSlot := fun i => .ok i
    storageAt := fun s =>
      if s = 0 then .ok 0 else if s = 1 then .ok 1200
      else if s = 2 then .ok 99900 else if s = 3 then .ok 500 else .ok 0
    valueToBalance := fun v dec => .ok (specDecode v dec) }

/-- Concrete port whose token-data fetch fails. -/
def P9 : ChainPort :=
  { getTokenData := .error "boom"
    balance := .ok 0
    getMapSlot := fun i => .ok i
    storageAt := fun _ => .ok 0
    valueToBalance := fun v dec => .ok (specDecode v dec) }

/-- C1: the claim states that on success `DiscoverSlot` returns the
full-precision decoded balance of the accepted candidate as the amount
(not zero).  The code does not: `amount := big.NewFloat(0)` before the
loop is shadowed by the loop-local `amount, err :=` at the
`ValueToBalance` call, so the returned outer `amount` is always 0.  At
the concrete port `P1` position 0 is accepted and its candidate decodes
to the scaled balance 5, yet the returned amount is 0. -/
theorem C1_shadowed_amount_bug :
    (DiscoverSlot P1).1 = ⟨0, some 0, none⟩ ∧
    P1.valueToBalance 50 1 = .ok 5 ∧ (0 : ℚ) ≠ 5 := by
  refine ⟨by decide, by decide, by norm_num⟩

/-- C2 (counterexample): the claim states the match test compares the
truncated *unscaled* magnitudes.  At port `P2` (decimals 2, ground truth
1.99, candidate 1.50) the truncated unscaled magnitudes are 150 and 199,
which differ, yet the code accepts position 0 because the truncated
*scaled* values are both 1. -/
theorem C2_counterexample :
    (DiscoverSlot P2).1 = ⟨0, some 0, none⟩ ∧
    P2.valueToBalance 150 2 = .ok (mkRat 3 2) ∧
    P2.balance = .ok (mkRat 199 100) ∧
    uint64Trunc (unscaledMagnitude (mkRat 3 2) 2) ≠
      uint64Trunc (unscaledMagnitude (mkRat 199 100) 2) := by
  refine ⟨by decide, by decide, by decide, by decide⟩

/-- C2 (amended): in every iteration whose slot derivation, storage read
and decode succeed, the candidate is accepted exactly when its *scaled*
decoded balance and the scaled ground-truth balance truncate to the same
64-bit unsigned integer (`ubal` is the precomputed truncated ground
truth, as in `DiscoverSlot`). -/
theorem C2_scaled_truncation_match (p : ChainPort) (dec ubal i fuel slot v : ℕ)
    (q : ℚ) (hs : p.getMapSlot i = .ok slot) (hv : p.storageAt slot = .ok v)
    (hq : p.valueToBalance v dec = .ok q) :
    (discoverLoop p dec ubal i (fuel + 1)).1 = ⟨(i : ℤ), some 0, none⟩ ↔
      uint64Trunc q = ubal := by
  constructor
  · intro h
    by_contra hne
    have hcont : (discoverLoop p dec ubal i (fuel + 1)).1 =
        (discoverLoop p dec ubal (i + 1) fuel).1 := by
      simp [discoverLoop, hs, hv, hq, hne]
    rw [hcont] at h
    rcases discoverLoop_shape p dec ubal fuel (i + 1) with ⟨j, hj, hr⟩ | ⟨e, hr⟩
    · rw [hr] at h
      have hji : (j : ℤ) = (i : ℤ) := congrArg DiscoverResult.index h
      omega
    · rw [hr] at h
      have hji : (-1 : ℤ) = (i : ℤ) := congrArg DiscoverResult.index h
      omega
  · intro h
    simp [discoverLoop, hs, hv, hq, h]

/-- Witness for the amended C2 at the concrete port `P2`. -/
theorem C2_scaled_truncation_match_witness :
    (discoverLoop P2 2 1 0 30).1 = ⟨0, some 0, none⟩ :=
  (C2_scaled_truncation_match P2 2 1 0 29 0 150 (mkRat 3 2)
    rfl rfl (by decide)).mpr (by decide)

/-- C4: if every storage read in positions `0..29` succeeds and no
position matches, `DiscoverSlot` returns the `ErrSlotNotFound` sentinel
with no position (index −1) and no amount (`nil`), issuing at most
`DiscoveryIterations` storage reads. -/
theorem C4_exhaustion (p : ChainPort) (dec : ℕ) (b : ℚ)
    (h1 : p.getTokenData = .ok dec) (h2 : p.balance = .ok b)
    (hall : ∀ j, j < DiscoveryIterations →
      succNonMatch p dec (uint64Trunc b) j = true) :
    (DiscoverSlot p).1 = ⟨-1, none, some .slotNotFound⟩ ∧
    (DiscoverSlot p).2.length ≤ DiscoveryIterations := by
  have h := discoverLoop_exhaust p dec (uint64Trunc b) DiscoveryIterations 0
    (fun j hj1 hj2 => hall j (by omega))
  simp [DiscoverSlot, h1, h2, h, List.length_range']

/-- Witness for C4 at the concrete port `P4`. -/
theorem C4_exhaustion_witness :
    (DiscoverSlot P4).1 = ⟨-1, none, some .slotNotFound⟩ ∧
    (DiscoverSlot P4).2.length ≤ DiscoveryIterations :=
  C4_exhaustion P4 2 7 rfl rfl (fun _ _ => rfl)

/-- C5: an I/O error from a storage read aborts the whole search at once
(the result surfaces that error and no further position is read), while a
decode failure at a position is skipped: the loop result is exactly the
result of continuing from the next position. -/
theorem C5_io_abort_decode_skip (p : ChainPort) (dec ubal i fuel slot : ℕ)
    (hs : p.getMapSlot i = .ok slot) :
    (∀ e, p.storageAt slot = .error e →
      discoverLoop p dec ubal i (fuel + 1) = (⟨-1, none, some (.storage e)⟩, [i])) ∧
    (∀ v e2, p.storageAt slot = .ok v → p.valueToBalance v dec = .error e2 →
      discoverLoop p dec ubal i (fuel + 1) =
        ((discoverLoop p dec ubal (i + 1) fuel).1,
          i :: (discoverLoop p dec ubal (i + 1) fuel).2)) := by
  constructor
  · intro e he
    simp [discoverLoop, hs, he]
  · intro v e2 hv hd
    simp [discoverLoop, hs, hv, hd]

/-- Witness for C5: the storage-read failure of `P5` aborts at position 0,
and the decode failure of `P5b` at position 0 continues from position 1. -/
theorem C5_io_abort_decode_skip_witness :
    discoverLoop P5 2 7 0 30 = (⟨-1, none, some (.storage "timeout")⟩, [0]) ∧
    discoverLoop P5b 2 7 0 30 =
      ((discoverLoop P5b 2 7 1 29).1, 0 :: (discoverLoop P5b 2 7 1 29).2) :=
  ⟨(C5_io_abort_decode_skip P5 2 7 0 29 0 rfl).1 "timeout" rfl,
   (C5_io_abort_decode_skip P5b 2 7 0 29 0 rfl).2 5 "bad" rfl rfl⟩

/-- C6: positions are tried strictly in increasing order from 0 and the
loop stops at the first match: if every position before `k` reads
successfully without matching and position `k` reads, decodes and
matches, `DiscoverSlot` returns exactly `k`, and the recorded reads are
`0, 1, ..., k` in order. -/
theorem C6_first_match_position (p : ChainPort) (k dec : ℕ) (b : ℚ)
    (h1 : p.getTokenData = .ok dec) (h2 : p.balance = .ok b)
    (hk : k < DiscoveryIterations)
    (hbefore : ∀ j, j < k → succNonMatch p dec (uint64Trunc b) j = true)
    (hmatch : matchAt p dec (uint64Trunc b) k = true) :
    (DiscoverSlot p).1 = ⟨(k : ℤ), some 0, none⟩ ∧
    (DiscoverSlot p).2 = List.range (k + 1) := by
  have h := discoverLoop_first_match p dec (uint64Trunc b) k 0 DiscoveryIterations
    hk (fun j hj1 hj2 => hbefore j (by omega)) (by simpa using hmatch)
  simp [DiscoverSlot, h1, h2, h, List.range_eq_range']

/-- Witness for C6 at the spec's end-to-end scenario port `P6` (true
position 3). -/
theorem C6_first_match_position_witness :
    (DiscoverSlot P6).1 = ⟨3, some 0, none⟩ ∧
    (DiscoverSlot P6).2 = List.range 4 :=
  C6_first_match_position P6 3 2 5 rfl rfl (by decide)
    (fun j hj => by interval_cases j <;> decide) (by decide)

/-- C9: `DiscoverSlot` returns a non-negative position exactly when its
error is `nil`, and every failing return carries position −1 and a `nil`
amount. -/
theorem C9_failure_shape (p : ChainPort) :
    (0 ≤ (DiscoverSlot p).1.index ↔ (DiscoverSlot p).1.err = none) ∧
    ((DiscoverSlot p).1.err ≠ none →
      (DiscoverSlot p).1.index = -1 ∧ (DiscoverSlot p).1.amount = none) := by
  have main : (∃ j : ℕ, (DiscoverSlot p).1 = ⟨(j : ℤ), some 0, none⟩) ∨
      (∃ e, (DiscoverSlot p).1 = ⟨-1, none, some e⟩) := by
    cases h1 : p.getTokenData with
    | error e => exact Or.inr ⟨DiscErr.getTokenData e, by simp [DiscoverSlot, h1]⟩
    | ok dec =>
      cases h2 : p.balance with
      | error e => exact Or.inr ⟨DiscErr.balanceErr e, by simp [DiscoverSlot, h1, h2]⟩
      | ok b =>
        rcases discoverLoop_shape p dec (uint64Trunc b) DiscoveryIterations 0 with
          ⟨j, _, hr⟩ | ⟨e, hr⟩
        · exact Or.inl ⟨j, by simp [DiscoverSlot, h1, h2, hr]⟩
        · exact Or.inr ⟨e, by simp [DiscoverSlot, h1, h2, hr]⟩
  rcases main with ⟨j, hr⟩ | ⟨e, hr⟩ <;> rw [hr]
  · exact ⟨by simp, by simp⟩
  · exact ⟨by simp, fun _ => ⟨rfl, rfl⟩⟩

/-- Witness for C9 at the concrete failing port `P9`. -/
theorem C9_failure_shape_witness :
    (DiscoverSlot P9).1.index = -1 ∧ (DiscoverSlot P9).1.amount = none :=
  (C9_failure_shape P9).2 (by decide)

/-- The storage proof data `main` consumes from the fetched
`*ethstorageproof.StorageProof`: the claimed raw storage value
(`sproof.StorageProof[0].Value`, modelled by the natural number it
encodes) and the storage hash.  The Merkle node lists are opaque to the
orchestrator and are left abstract inside the verifier oracles. -/
structure SProof where
  value : ℕ
  storageHash : ℕ
deriving DecidableEq

/-- The `token.Token` interface as `main` uses it:
`DiscoverSlot(holder) (int, *big.Float, error)` (result modelled as the
returned triple) and `GetProof(holder, blockNumber, slot)`. -/
structure TokenPort where
  discoverSlot : ℤ × Option ℚ × Option String
  getProof : ℕ → ℤ → Except String SProof

/-- The token kinds `main` dispatches on (`token.TokenTypeMapbased`,
`token.TokenTypeMinime`). -/
inductive TType where
  | mapbased
  | minime
deriving DecidableEq

/-- Terminal outcome of one `main` run: `fatal` for every `log.Fatal`
path, `noAmount` for the early `return` after `"no amount for holder"`,
and `finished` for a completed run carrying the verification verdict of
`ethstorageproof.VerifyEIP1186` and, when invalid, its diagnostic
error. -/
inductive MainOutcome where
  | fatal (msg : String)
  | noAmount
  | finished (proofValid : Bool) (diag : Option String)
deriving DecidableEq

/-- The pipeline calls recorded by the embedded orchestrator, in order:
slot discovery, block resolution, proof retrieval, value decoding, the
minime-specific check, and EIP-1186 verification. -/
inductive MainStep where
  | discoverCall
  | getBlockCall
  | getProofCall
  | decodeCall
  | minimeVerifyCall
  | verifyCall
deriving DecidableEq

/-- The external collaborators of `main` in `ethproof.go`, one oracle per
call site: `ts.GetTokenData()` (its `Decimals` field), `ts.Balance`
(scaled `*big.Float`), `token.NewToken`, `ts.GetBlock` (the resolved
block, modelled by its number), `minime.ParseMinimeValue` (modelled from
the spec: the checkpoint-list decode contract
`(scaledBalance, fullRawBalance, effectiveBlockNumber, error)`),
`helpers.ValueToBalance` (the map-based decode contract),
`minime.VerifyProof` (modelled from the spec: the checkpoint-list kind's
own externally-defined check, abstracted to its success-or-error result),
and `ethstorageproof.VerifyEIP1186` (returns `(isValid, diagnostic)`). -/
structure MainPort where
  getTokenData : Except String ℕ
  balance : Except String ℚ
  newToken : TType → Except String TokenPort
  getBlock : Option ℤ → Except String ℕ
  parseMinime : ℕ → ℕ → Except String (ℚ × ℕ × ℕ)
  valueToBalance : ℕ → ℕ → Except String ℚ
  minimeVerify : Except String Unit
  verifyEIP1186 : SProof → Bool × String

/-- The final report of `main`: `if pv, err := ethstorageproof.VerifyEIP1186(sproof); pv`
logs `"account proof is valid!"`, else `"account proof is invalid: (%v)"`
with the verifier's error — a verdict with a diagnostic exactly when
invalid, never a fatal exit. -/
def verdictOf (pv : Bool) (err : String) : MainOutcome :=
  .finished pv (if pv then none else some err)

/-- The tail of `main` in `cmd/ethproof/ethproof.go`, from the token-kind
switch onward (everything after the zero-balance check): token kind
dispatch, `NewToken`, `DiscoverSlot`, block resolution (`height > 0` pins
the block, otherwise latest), `GetProof`, kind-specific decoding (failure
logs a warning and continues), the minime path's `minime.VerifyProof`
(fatal on error), and finally `VerifyEIP1186`, whose verdict is reported,
with its error as diagnostic when invalid. -/
def mainResolve (p : MainPort) (contractType : String) (height : ℤ)
    (decimals : ℕ) : MainOutcome × List MainStep × List String :=
  match (if contractType = "mapbased" then some TType.mapbased
         else if contractType = "minime" then some TType.minime
         else none) with
  | none => (.fatal ("token type not supported " ++ contractType), [], [])
  | some tt =>
    match p.newToken tt with
            | .error e => (.fatal e, [], [])
            | .ok t =>
              match t.discoverSlot with
              | (_, _, some e) => (.fatal e, [.discoverCall], [])
              | (slot, _, none) =>
                match p.getBlock (if height > 0 then some height else none) with
                | .error e => (.fatal e, [.discoverCall, .getBlockCall], [])
                | .ok blockNum =>
                  match t.getProof blockNum slot with
                  | .error e =>
                    (.fatal ("cannot get proof: " ++ e),
                      [.discoverCall, .getBlockCall, .getProofCall], [])
                  | .ok sproof =>
                    match tt with
                    | .minime =>
                      let w := match p.parseMinime sproof.value decimals with
                               | .error e => ["warning: " ++ e]
                               | .ok _ => []
                      match p.minimeVerify with
                      | .error e =>
                        (.fatal e,
                          [.discoverCall, .getBlockCall, .getProofCall,
                            .decodeCall, .minimeVerifyCall], w)
                      | .ok _ =>
                        (verdictOf (p.verifyEIP1186 sproof).1
                            (p.verifyEIP1186 sproof).2,
                          [.discoverCall, .getBlockCall, .getProofCall,
                            .decodeCall, .minimeVerifyCall, .verifyCall], w)
                    | .mapbased =>
                      let w := match p.valueToBalance sproof.value decimals with
                               | .error e => ["warning: " ++ e]
                               | .ok _ => []
                      (verdictOf (p.verifyEIP1186 sproof).1
                          (p.verifyEIP1186 sproof).2,
                        [.discoverCall, .getBlockCall, .getProofCall,
                          .decodeCall, .verifyCall], w)

/-- The `main` function of `cmd/ethproof/ethproof.go`, embedded over a
`MainPort` with the contract-type flag and the height flag as inputs.
Returns the outcome, the recorded pipeline calls, and the warnings
printed for non-fatal decode failures.  `ts.Init`'s error is discarded by
the Go code, so it does not appear.  Mirrors the source order: token
data, decimals check, balance fetch, truncated zero-balance check
(`if a, _ := balance.Uint64(); a == 0`), then `mainResolve` for the rest
of the pipeline. -/
def mainRun (p : MainPort) (contractType : String) (height : ℤ) :
    MainOutcome × List MainStep × List String :=
  match p.getTokenData with
  | .error e => (.fatal e, [], [])
  | .ok decimals =>
    if decimals < 1 then (.fatal "decimals cannot be fetch", [], [])
    else
      match p.balance with
      | .error e => (.fatal e, [], [])
      | .ok balance =>
        if uint64Trunc balance = 0 then (.noAmount, [], [])
        else mainResolve p contractType height decimals

/-- An outcome that is a verification verdict: a completed report that is
valid with no diagnostic, or invalid with a diagnostic. -/
def isVerdictReport : MainOutcome → Bool
  | .finished true none => true
  | .finished false (some _) => true
  | _ => false

theorem verdictOf_isVerdictReport (pv : Bool) (e : String) :
    isVerdictReport (verdictOf pv e) = true := by
  cases pv <;> simp [verdictOf, isVerdictReport]

theorem mainResolve_not_noAmount (p : MainPort) (ct : String) (ht : ℤ) (d : ℕ) :
    (mainResolve p ct ht d).1 ≠ MainOutcome.noAmount := by
  unfold mainResolve
  repeat' split
  all_goals simp [verdictOf]

theorem mainResolve_shape (p : MainPort) (ct : String) (ht : ℤ) (d : ℕ) :
    (∃ e st w, mainResolve p ct ht d = (.fatal e, st, w) ∧
      MainStep.verifyCall ∉ st) ∨
    (∃ sp st w, mainResolve p ct ht d =
      (verdictOf (p.verifyEIP1186 sp).1 (p.verifyEIP1186 sp).2, st, w)) := by
  unfold mainResolve
  repeat' split
  all_goals first
    | (left; exact ⟨_, _, _, rfl, by decide⟩)
    | (right; exact ⟨_, _, _, rfl⟩)

theorem mainRun_shape (p : MainPort) (ct : String) (ht : ℤ) :
    (∃ e, mainRun p ct ht = (.fatal e, [], [])) ∨
    (mainRun p ct ht = (.noAmount, [], [])) ∨
    (∃ d, mainRun p ct ht = mainResolve p ct ht d) := by
  unfold mainRun
  repeat' split
  all_goals first
    | (exact Or.inl ⟨_, rfl⟩)
    | (exact Or.inr (Or.inl rfl))
    | (exact Or.inr (Or.inr ⟨_, rfl⟩))

/-- The `token.Token` implementation used for concrete orchestrator runs:
discovery succeeds at slot 3 and proof retrieval returns a proof with
claimed value 500 and storage hash 77. -/
def T3 : TokenPort :=
  { discoverSlot := (3, some 0, none)
    getProof := fun _ _ => .ok ⟨500, 77⟩ }

/-- Concrete orchestrator port: decimals 2, balance 5, a failing map-based
decoder, and a verifier that reports the proof valid. -/
def MP3 : MainPort :=
  { getTokenData := .ok 2
    balance := .ok 5
    newToken := fun _ => .ok T3
    getBlock := fun _ => .ok 100
    parseMinime := fun _ _ => .error "parse"
    valueToBalance := fun _ _ => .error "decode"
    minimeVerify := .ok ()
    verifyEIP1186 := fun _ => (true, "") }

/-- Concrete orchestrator port: decimals 2 and a nonzero scaled balance of
half a token (0.50). -/
def P7 : MainPort :=
  { getTokenData := .ok 2
    balance := .ok (mkRat 1 2)
    newToken := fun _ => .ok T3
    getBlock := fun _ => .ok 100
    parseMinime := fun _ _ => .error "parse"
    valueToBalance := fun v dec => .ok (specDecode v dec)
    minimeVerify := .ok ()
    verifyEIP1186 := fun _ => (true, "") }

/-- C3: a decode failure of the proof's claimed storage value is
non-fatal: the run that reaches the value-decoding step records a warning
and continues to cryptographic verification, and when the proof is
structurally valid (the EIP-1186 verifier answers true, and on the minime
path its kind-specific check passes) the run reports `proofValid = true`
even though decoding failed. -/
theorem C3_decode_failure_nonfatal (p : MainPort) (ct : String) (ht : ℤ)
    (dec : ℕ) (b : ℚ) (t : TokenPort) (slot : ℤ) (amt : Option ℚ)
    (blockNum : ℕ) (sp : SProof) (e : String)
    (h1 : p.getTokenData = .ok dec) (h2 : ¬ dec < 1)
    (h3 : p.balance = .ok b) (h4 : uint64Trunc b ≠ 0)
    (h6 : t.discoverSlot = (slot, amt, none))
    (h7 : p.getBlock (if ht > 0 then some ht else none) = .ok blockNum)
    (h8 : t.getProof blockNum slot = .ok sp)
    (h9 : (p.verifyEIP1186 sp).1 = true)
    (hbr : (ct = "mapbased" ∧ p.newToken .mapbased = .ok t ∧
              p.valueToBalance sp.value dec = .error e)
         ∨ (ct = "minime" ∧ p.newToken .minime = .ok t ∧
              p.parseMinime sp.value dec = .error e ∧
              p.minimeVerify = .ok ())) :
    (mainRun p ct ht).1 = .finished true none ∧
    (mainRun p ct ht).2.2 = ["warning: " ++ e] ∧
    MainStep.verifyCall ∈ (mainRun p ct ht).2.1 := by
  rcases hbr with ⟨hct, hnt, hdec⟩ | ⟨hct, hnt, hdec, hmv⟩ <;> subst hct
  · simp [mainRun, mainResolve, verdictOf, h1, h2, h3, h4, hnt, h6, h7, h8,
      h9, hdec]
  · simp [mainRun, mainResolve, verdictOf, h1, h2, h3, h4, hnt, h6, h7, h8,
      h9, hdec, hmv]

/-- Witness for C3 at the concrete port `MP3` (map-based path, decoder
fails, proof valid). -/
theorem C3_decode_failure_nonfatal_witness :
    (mainRun MP3 "mapbased" 0).1 = .finished true none ∧
    (mainRun MP3 "mapbased" 0).2.2 = ["warning: " ++ "decode"] ∧
    MainStep.verifyCall ∈ (mainRun MP3 "mapbased" 0).2.1 :=
  C3_decode_failure_nonfatal MP3 "mapbased" 0 2 5 T3 3 (some 0) 100
    ⟨500, 77⟩ "decode" rfl (by decide) rfl (by decide) rfl rfl rfl rfl
    (Or.inl ⟨rfl, rfl, rfl⟩)

/-- C7 (counterexample): the claim states the zero-balance short-circuit
is taken exactly when the balance is zero; at port `P7` the balance is
the nonzero 0.50, yet the run short-circuits with the trivial
`noAmount` report because `balance.Uint64()` truncates 0.50 to 0. -/
theorem C7_counterexample :
    (mainRun P7 "mapbased" 0).1 = .noAmount ∧
    P7.balance = .ok (mkRat 1 2) ∧ (mkRat 1 2 : ℚ) ≠ 0 := by
  refine ⟨by decide, by decide, by decide⟩

/-- C7 (amended): once token data and the holder's balance are fetched,
the orchestrator takes the trivial-success short-circuit exactly when the
balance truncated to a 64-bit unsigned integer is zero; when it is taken,
no discovery or proof-retrieval call is made (the recorded pipeline calls
are empty). -/
theorem C7_trunc_zero_iff (p : MainPort) (ct : String) (ht : ℤ)
    (dec : ℕ) (b : ℚ) (h1 : p.getTokenData = .ok dec) (h2 : ¬ dec < 1)
    (h3 : p.balance = .ok b) :
    ((mainRun p ct ht).1 = .noAmount ↔ uint64Trunc b = 0) ∧
    (uint64Trunc b = 0 → (mainRun p ct ht).2.1 = []) := by
  have hrun : mainRun p ct ht =
      if uint64Trunc b = 0 then (.noAmount, [], [])
      else mainResolve p ct ht dec := by
    simp [mainRun, h1, h2, h3]
  by_cases h0 : uint64Trunc b = 0
  · rw [hrun, if_pos h0]
    exact ⟨⟨fun _ => h0, fun _ => rfl⟩, fun _ => rfl⟩
  · rw [hrun, if_neg h0]
    exact ⟨⟨fun hc => absurd hc (mainResolve_not_noAmount p ct ht dec),
            fun hc => absurd hc h0⟩, fun hc => absurd hc h0⟩

/-- Witness for the amended C7 at the concrete port `P7`. -/
theorem C7_trunc_zero_iff_witness :
    (mainRun P7 "mapbased" 0).1 = .noAmount ∧
    (mainRun P7 "mapbased" 0).2.1 = [] :=
  ⟨(C7_trunc_zero_iff P7 "mapbased" 0 2 (mkRat 1 2) rfl (by decide) rfl).1.mpr
      (by decide),
   (C7_trunc_zero_iff P7 "mapbased" 0 2 (mkRat 1 2) rfl (by decide) rfl).2
      (by decide)⟩

/-- C8: every run that reaches the cryptographic-verification step (the
`VerifyEIP1186` call is recorded) ends in a verdict report — valid with
no diagnostic or invalid with a diagnostic — never in a fatal exit. -/
theorem C8_verification_verdict (p : MainPort) (ct : String) (ht : ℤ)
    (hv : MainStep.verifyCall ∈ (mainRun p ct ht).2.1) :
    isVerdictReport (mainRun p ct ht).1 = true := by
  rcases mainRun_shape p ct ht with ⟨e, hr⟩ | hr | ⟨d, hr⟩
  · rw [hr] at hv; simp at hv
  · rw [hr] at hv; simp at hv
  · rw [hr] at hv ⊢
    rcases mainResolve_shape p ct ht d with ⟨e, st, w, hq, hnotin⟩ | ⟨sp, st, w, hq⟩
    · rw [hq] at hv; exact absurd hv hnotin
    · rw [hq]; exact verdictOf_isVerdictReport _ _

/-- Witness for C8 at the concrete port `MP3`. -/
theorem C8_verification_verdict_witness :
    isVerdictReport (mainRun MP3 "mapbased" 0).1 = true :=
  C8_verification_verdict MP3 "mapbased" 0 (by decide)

/-- C10: the orchestrator's zero check compares the 64-bit truncation of
the fetched balance with zero, so every balance that truncates to 0 —
in particular every nonnegative balance strictly below one whole token —
is reported as `noAmount` and the run makes no discovery or
proof-retrieval call. -/
theorem C10_truncated_zero_check :
    (∀ (p : MainPort) (ct : String) (ht : ℤ) (dec : ℕ) (b : ℚ),
      p.getTokenData = .ok dec → ¬ dec < 1 → p.balance = .ok b →
      uint64Trunc b = 0 →
      (mainRun p ct ht).1 = .noAmount ∧ (mainRun p ct ht).2.1 = []) ∧
    (∀ q : ℚ, 0 ≤ q → q < 1 → uint64Trunc q = 0) := by
  constructor
  · intro p ct ht dec b h1 h2 h3 h0
    constructor <;> simp [mainRun, h1, h2, h3, h0]
  · intro q h0 h1
    unfold uint64Trunc
    rw [if_neg (not_lt.mpr h0)]
    have hden : (0 : ℚ) < (q.den : ℚ) := by exact_mod_cast q.den_pos
    have h2 : (q.num : ℚ) < (q.den : ℚ) := by
      have hq1 : (q.num : ℚ) / (q.den : ℚ) < 1 := by
        rw [Rat.num_div_den]; exact h1
      exact (div_lt_one hden).mp hq1
    have hnum : q.num < (q.den : ℤ) := by exact_mod_cast h2
    have hnn : 0 ≤ q.num := Rat.num_nonneg.mpr h0
    have hlt : q.num.toNat < q.den := by omega
    simp [Nat.div_eq_of_lt hlt]

/-- Witness for C10 at the concrete port `P7` (balance 0.50, nonzero but
below one token). -/
theorem C10_truncated_zero_check_witness :
    (mainRun P7 "mapbased" 0).1 = .noAmount ∧
    uint64Trunc (mkRat 1 2) = 0 :=
  ⟨(C10_truncated_zero_check.1 P7 "mapbased" 0 2 (mkRat 1 2) rfl (by decide)
      rfl (by decide)).1,
   C10_truncated_zero_check.2 (mkRat 1 2) (by decide) (by decide)⟩
